/-
A verification development for the connection-pool module `pymongo/pool.py`
(classes `PoolOptions`, `SocketInfo`, `Pool`).

The Python module is embedded shallowly:

* A `SocketInfo` is a record of the fields the Python object carries
  (`authset`, `closed`, `last_checkout`, `pool_id`, the wire-version window);
  the wrapped OS socket is modelled by an identity number `sockId` together
  with the byte chunks `chunks` that successive `recv` calls will yield
  (an exhausted chunk list models the peer having closed the stream, which
  makes `recv` return the empty byte string).
* A `Pool` is a record of the fields of the Python object.  The counting
  semaphore `_socket_semaphore` is modelled by the integer `permits`, the
  current number of available permits: a successful `acquire` decrements it
  and every `release` increments it.
* OS- and network-level nondeterminism (the pid seen by `os.getpid()`, the
  clock, whether `connect` succeeds, whether the peer half of a pooled
  socket is readable, whether the caller's scope body raises) is supplied
  through explicit environment records (`GetEnv`, `NetEnv`); each field
  stands for the outcome of exactly one external call in the source.
* Python exceptions are modelled by `Except`/explicit error codes.  The
  relevant exception classes are `socket.error`, `ConnectionFailure` and
  everything else (e.g. `OperationFailure` raised by auth code), matching
  the two `except` clauses of `Pool.get_socket`.
-/
import Mathlib

namespace PyMongoPool

/-- A MongoCredential as used by `check_auth`: the only field the pool code
reads is `source` (passed to `auth.logout`); the remaining identity is
collapsed into `user`. -/
structure Credential where
  source : String
  user : String
deriving DecidableEq, Repr

/-- One external authentication call made by `SocketInfo.check_auth`:
`auth.logout(source, self)` or `auth.authenticate(credentials, self)`. -/
inductive AuthEvent where
  | logout (source : String)
  | authenticate (cred : Credential)
deriving DecidableEq, Repr

/-- Embedding of the `SocketInfo` object (pool.py lines 118-263).
The Python `authset` is a `set`; it is modelled as a duplicate-free list
(Python set iteration order is arbitrary, so any order is a faithful
refinement). -/
structure SocketInfo where
  /-- identity of the wrapped OS socket (`self.sock`); two `SocketInfo`s are
  the same Python-level connection iff their sockets are the same object. -/
  sockId : Nat
  /-- the byte chunks that successive `self.sock.recv` calls will return, in
  order; when the list is exhausted `recv` returns `b""` (peer closed). -/
  chunks : List (List Nat)
  host : String
  authset : List Credential
  closed : Bool
  last_checkout : Nat
  pool_id : Nat
  min_wire_version : Option Nat
  max_wire_version : Option Nat
deriving DecidableEq, Repr

/-- `SocketInfo.close`: sets the monotone `closed` flag; errors from
`self.sock.close()` are swallowed, so the OS call has no modelled effect. -/
def SocketInfo.close (s : SocketInfo) : SocketInfo :=
  { s with closed := true }

/-- `SocketInfo.set_wire_version_range`. -/
def SocketInfo.set_wire_version_range (s : SocketInfo) (lo hi : Nat) : SocketInfo :=
  { s with min_wire_version := some lo, max_wire_version := some hi }

/-- `SocketInfo.check_auth(all_credentials)` (pool.py lines 196-216).
`all_credentials` is a dict mapping auth source to credential; the code only
uses its values, so the embedding takes the value list.  The first component
of the result is the updated socket, the second the external auth calls in
the order they were made.  The two `for` loops iterate over set differences
(iteration order unspecified in Python; the embedding uses `Finset.toList`
order). -/
def SocketInfo.check_auth (s : SocketInfo) (all_credentials : List Credential) :
    SocketInfo × List AuthEvent :=
  if all_credentials ≠ [] ∨ s.authset ≠ [] then
    let cached := all_credentials.dedup
    let authset := s.authset
    let toLogout := authset.filter (fun c => c ∉ cached)
    let toLogin := cached.filter (fun c => c ∉ authset)
    let afterLogout := toLogout.foldl (fun a c => a.erase c) authset
    let finalSet := toLogin.foldl (fun a c => a.insert c) afterLogout
    ({ s with authset := finalSet },
     toLogout.map (fun c => AuthEvent.logout c.source)
       ++ toLogin.map (fun c => AuthEvent.authenticate c))
  else (s, [])

/-- Errors surfaced by the framed send/receive paths.  `assertionIdMismatch`
and `assertionOpMismatch` are the two `assert` statements of
`receive_message`; `osError` stands for the `OSError` a `recv` with a
negative size would raise; `socketError` is a failed `sendall`. -/
inductive WireError where
  | autoReconnect
  | assertionIdMismatch
  | assertionOpMismatch
  | osError
  | socketError
deriving DecidableEq, Repr

/-- `SocketInfo.__receive_data_on_socket(length)` (pool.py lines 184-194):
loop calling `recv(length)` and accumulating until `length` bytes arrived;
an empty chunk (peer closed) raises `AutoReconnect("connection closed")`.
`recv n` on the modelled socket returns up to `n` bytes from the first
pending chunk.  One recursion step per `recv` call; when the pending chunk
holds more than the requested count, the remaining count reaches zero and
the loop exits with the unread remainder still queued, so that case returns
directly.  Returns the received bytes and the chunks left unread. -/
def receiveDataOnSocket : List (List Nat) → Nat → Except WireError (List Nat × List (List Nat))
  | chunks, 0 => .ok ([], chunks)
  | [], _ + 1 => .error .autoReconnect
  | c :: rest, n + 1 =>
    if c = [] then .error .autoReconnect
    else
      let chunk := c.take (n + 1)
      let leftover := c.drop (n + 1)
      if leftover = [] then
        match receiveDataOnSocket rest (n + 1 - chunk.length) with
        | .error e => .error e
        | .ok (msg, restFinal) => .ok (chunk ++ msg, restFinal)
      else
        .ok (chunk, leftover :: rest)

/-- Little-endian unsigned decoding of the first four bytes of `b`
(missing positions read as 0). -/
def le32 (b : List Nat) : Nat :=
  b.getD 0 0 + 256 * b.getD 1 0 + 65536 * b.getD 2 0 + 16777216 * b.getD 3 0

/-- `struct.unpack("<i", ·)`: little-endian signed 32-bit decoding of the
first four bytes. -/
def int32LE (b : List Nat) : Int :=
  let n := le32 b % 4294967296
  if n < 2147483648 then (n : Int) else (n : Int) - 4294967296

/-- Little-endian signed 32-bit encoding (`struct.pack("<i", ·)` on any
integer congruent to `n` mod 2^32). -/
def encodeInt32LE (n : Int) : List Nat :=
  let m := (n % 4294967296).toNat
  [m % 256, m / 256 % 256, m / 65536 % 256, m / 16777216 % 256]

/-- The `try` body of `SocketInfo.receive_message` (pool.py lines 168-179):
read a 16-byte header, decode the total length at offset 0; if `request_id`
is given, assert it equals the response-to field at offset 8; assert
`operation` equals the opcode at offset 12; then read `length - 16` payload
bytes (a negative count would make `recv` raise `OSError`). -/
def receiveMessageAux (chunks : List (List Nat)) (operation : Int)
    (request_id : Option Int) : Except WireError (List Nat × List (List Nat)) :=
  match receiveDataOnSocket chunks 16 with
  | .error e => .error e
  | .ok (header, rest) =>
    let length := int32LE (header.take 4)
    let idOk : Bool :=
      match request_id with
      | none => true
      | some rid => rid = int32LE ((header.drop 8).take 4)
    if ¬ idOk then .error .assertionIdMismatch
    else if ¬ (operation = int32LE (header.drop 12)) then .error .assertionOpMismatch
    else if length - 16 < 0 then .error .osError
    else receiveDataOnSocket rest (length - 16).toNat

/-- `SocketInfo.receive_message(operation, request_id)` (pool.py lines
163-182): the `try` body above, with the `except` clause closing the socket
before re-raising any exception. -/
def SocketInfo.receive_message (s : SocketInfo) (operation : Int)
    (request_id : Option Int) : SocketInfo × Except WireError (List Nat) :=
  match receiveMessageAux s.chunks operation request_id with
  | .error e => (s.close, .error e)
  | .ok (payload, rest) => ({ s with chunks := rest }, .ok payload)

/-- `SocketInfo.send_message(message)` (pool.py lines 152-161):
`self.sock.sendall` either succeeds (modelled by `sendOk = true`) or raises
a socket error, in which case the socket is closed before the exception
propagates. -/
def SocketInfo.send_message (s : SocketInfo) (sendOk : Bool) :
    SocketInfo × Except WireError Unit :=
  if sendOk then (s, .ok ()) else (s.close, .error .socketError)

/-- The exception classes distinguished by the `except` clauses of
`Pool.get_socket` and `Pool._check`: `socket.error`, `ConnectionFailure`
(whose subclass `AutoReconnect` behaves identically there), and every other
exception (e.g. `OperationFailure` from auth code or a domain error raised
by the caller's scope body). -/
inductive ErrKind where
  | socketError
  | connectionFailure
  | otherError
deriving DecidableEq, Repr

/-- Embedding of `PoolOptions` (pool.py lines 51-115); timeouts are opaque
durations, kept only because the object carries them. -/
structure PoolOptions where
  max_pool_size : Option Nat
  connect_timeout : Option Nat
  socket_timeout : Option Nat
  wait_queue_timeout : Option Nat
  wait_queue_multiple : Option Nat
  ssl : Bool
  socket_keepalive : Bool
deriving DecidableEq, Repr

/-- Embedding of the `Pool` object (pool.py lines 268-298).  The semaphore
`_socket_semaphore` is modelled by its available-permit count `permits`
(an unbounded dummy semaphore, used when `max_pool_size` is `None`, counts
the same way). -/
structure Pool where
  sockets : List SocketInfo
  pool_id : Nat
  pid : Nat
  pairHost : String
  pairPort : Nat
  opts : PoolOptions
  check_interval_seconds : Option Nat
  permits : Int
deriving DecidableEq, Repr

/-- `Pool.__init__(pair, options)`: empty idle set, generation 0, the
current pid, and a semaphore holding `max_pool_size` permits (the unbounded
case starts the balance count at 0). -/
def Pool.init (host : String) (port : Nat) (opts : PoolOptions) (pid : Nat) : Pool :=
  { sockets := []
    pool_id := 0
    pid := pid
    pairHost := host
    pairPort := port
    opts := opts
    check_interval_seconds := some 1
    permits := (opts.max_pool_size.getD 0 : Nat) }

/-- A successful `self._socket_semaphore.acquire(...)`: one permit taken. -/
def Pool.acquirePermit (p : Pool) : Pool :=
  { p with permits := p.permits - 1 }

/-- `self._socket_semaphore.release()`: one permit returned. -/
def Pool.releasePermit (p : Pool) : Pool :=
  { p with permits := p.permits + 1 }

/-- Replacing `self.sockets` under the pool lock. -/
def Pool.withSockets (p : Pool) (l : List SocketInfo) : Pool :=
  { p with sockets := l }

/-- `Pool.reset()` (pool.py lines 299-309): bump `pool_id`, refresh `pid`
from `os.getpid()`, swap the idle set with an empty one under the lock, and
close every removed socket.  The second component returns the removed,
now-closed sockets (the Python objects simply become garbage); the
semaphore is untouched. -/
def Pool.reset (p : Pool) (current_pid : Nat) : Pool × List SocketInfo :=
  ({ p with pool_id := p.pool_id + 1, pid := current_pid, sockets := [] },
   p.sockets.map SocketInfo.close)

deriving instance DecidableEq for Except

/-- The OS/network environment of one pass through the checkout/return
protocol; each field is the outcome of one external call. -/
structure GetEnv where
  /-- `os.getpid()` (stable for the duration of the call). -/
  current_pid : Nat
  /-- the monotonic clock `_time()`. -/
  now : Nat
  /-- result of `self._socket_semaphore.acquire(True, wait_queue_timeout)`:
  `false` means the wait timed out and no permit was obtained. -/
  sem_ok : Bool
  /-- outcome of `self.connect()`: a fresh socket identity, or the kind of
  exception raised (`socket.error` from `create_connection`,
  `ConnectionFailure` from an SSL failure or missing UNIX-socket support). -/
  connect_result : Except ErrKind Nat
  /-- result of the `_closed(sock_info.sock)` zero-timeout readability
  probe, when `_check` performs it. -/
  probe_readable : Bool
  /-- outcome of `sock_info.check_auth(all_credentials)`: `none` on
  success, otherwise the kind of exception the auth code raised. -/
  auth_result : Option ErrKind
  /-- outcome of the caller's scope body (the code in the `with` block):
  `none` for a normal exit, otherwise the kind of exception raised. -/
  body_result : Option ErrKind
deriving DecidableEq, Repr

/-- `Pool.connect()` (pool.py lines 365-389): `create_connection` plus
optional SSL wrapping, producing a fresh `SocketInfo` stamped with the
current `pool_id`; failures raise `socket.error` or `ConnectionFailure`
(which outcome occurs is OS nondeterminism, supplied by the environment). -/
def Pool.connect (p : Pool) (env : GetEnv) : Except ErrKind SocketInfo :=
  match env.connect_result with
  | .error k => .error k
  | .ok sid =>
    .ok { sockId := sid
          chunks := []
          host := p.pairHost
          authset := []
          closed := false
          last_checkout := env.now
          pool_id := p.pool_id
          min_wire_version := none
          max_wire_version := none }

/-- The liveness-check condition of `Pool._check` (pool.py lines 525-528):
`check_interval_seconds` is not `None` and is either 0 or less than the
socket's age. -/
def Pool.probeDue (p : Pool) (s : SocketInfo) (env : GetEnv) : Bool :=
  match p.check_interval_seconds with
  | none => false
  | some civ => civ = 0 ∨ env.now - s.last_checkout > civ

/-- The error path of `Pool._check` (pool.py lines 535-540): try to build a
replacement via `self.connect()`; a `socket.error` there resets the pool
and re-raises, any other failure re-raises without resetting. -/
def Pool.checkReplace (p : Pool) (env : GetEnv) : Pool × Except ErrKind SocketInfo :=
  match p.connect env with
  | .ok ns => (p, .ok ns)
  | .error .socketError => ((p.reset env.current_pid).1, .error .socketError)
  | .error k => (p, .error k)

/-- `Pool._check(sock_info)` (pool.py lines 500-540): a pooled socket is in
error if it is closed, or its `pool_id` lags (close it), or the liveness
probe finds it readable (close it); on error a replacement is connected,
otherwise the original is returned. -/
def Pool._check (p : Pool) (s : SocketInfo) (env : GetEnv) :
    Pool × Except ErrKind SocketInfo :=
  if s.closed then p.checkReplace env
  else if p.pool_id ≠ s.pool_id then
    -- sock_info.close(); error = True (the closed socket is then discarded)
    p.checkReplace env
  else if p.probeDue s env then
    if env.probe_readable then p.checkReplace env
    else (p, .ok s)
  else (p, .ok s)

/-- `Pool._get_socket_no_auth()` (pool.py lines 442-472): fork check (reset
when the recorded pid differs from `os.getpid()`), timed semaphore acquire
(timeout raises `ConnectionFailure` via `_raise_wait_queue_timeout`), then
pop an idle socket and `_check` it — or connect a fresh one — releasing the
permit if anything in the `try` block raises; on success the socket's
`last_checkout` is refreshed. -/
def Pool._get_socket_no_auth (p : Pool) (env : GetEnv) :
    Pool × Except ErrKind SocketInfo :=
  let p0 := if p.pid ≠ env.current_pid then (p.reset env.current_pid).1 else p
  if ¬ env.sem_ok then (p0, .error .connectionFailure)
  else
    let p1 := p0.acquirePermit
    match p1.sockets with
    | s :: rest =>
      let p2 := p1.withSockets rest
      match p2._check s env with
      | (p3, .ok s1) => (p3, .ok { s1 with last_checkout := env.now })
      | (p3, .error k) => (p3.releasePermit, .error k)
    | [] =>
      match p1.connect env with
      | .ok s1 => (p1, .ok { s1 with last_checkout := env.now })
      | .error k => (p1.releasePermit, .error k)

/-- The `too_many_sockets` test of `Pool._return_socket` (pool.py lines
489-491). -/
def Pool.tooManySockets (p : Pool) : Bool :=
  match p.opts.max_pool_size with
  | none => false
  | some m => p.sockets.length ≥ m

/-- `Pool._return_socket(sock_info)` (pool.py lines 485-498): under the
lock, re-pool the socket unless the pool is full or the socket's `pool_id`
lags, in which case it is closed and discarded (returned in the second
component); then release the permit. -/
def Pool._return_socket (p : Pool) (s : SocketInfo) : Pool × Option SocketInfo :=
  if ¬ p.tooManySockets ∧ s.pool_id = p.pool_id then
    ((p.withSockets (s :: p.sockets)).releasePermit, none)
  else
    (p.releasePermit, some s.close)

/-- `Pool.maybe_return_socket(sock_info)` (pool.py lines 474-483): on a pid
mismatch release the permit and reset; on a closed socket just release the
permit; otherwise `_return_socket`.  The second component is the socket if
it was discarded rather than re-pooled. -/
def Pool.maybe_return_socket (p : Pool) (s : SocketInfo) (env : GetEnv) :
    Pool × Option SocketInfo :=
  if p.pid ≠ env.current_pid then
    ((p.releasePermit.reset env.current_pid).1, some s)
  else if s.closed then
    (p.releasePermit, some s)
  else
    p._return_socket s

/-- Result of one full pass through the `Pool.get_socket` context manager:
`.ok (some s)` — normal scope exit with `checkout=True`, the caller keeps
`s` (and its permit); `.ok none` — normal scope exit, socket returned to
the pool; `.error k` — the call or the scope body raised an exception of
kind `k`. -/
abbrev GetSocketResult := Except ErrKind (Option SocketInfo)

/-- `Pool.get_socket(all_credentials, min_wire_version, max_wire_version,
checkout)` (pool.py lines 391-440), run to scope completion: acquire via
`_get_socket_no_auth`, set the wire-version window, `check_auth`, hand the
socket to the scope body; `socket.error`/`ConnectionFailure` from auth or
body close the socket then return it (releasing the permit); any other
exception returns it without closing; a normal exit returns it unless
`checkout` is set. -/
def Pool.get_socket (p : Pool) (all_credentials : List Credential)
    (min_wire max_wire : Nat) (checkout : Bool) (env : GetEnv) :
    Pool × GetSocketResult :=
  match p._get_socket_no_auth env with
  | (p1, .error k) => (p1, .error k)
  | (p1, .ok s0) =>
    let s1 := s0.set_wire_version_range min_wire max_wire
    match env.auth_result with
    | some k =>
      if k = .socketError ∨ k = .connectionFailure then
        ((p1.maybe_return_socket s1.close env).1, .error k)
      else
        ((p1.maybe_return_socket s1 env).1, .error k)
    | none =>
      let s2 := (s1.check_auth all_credentials).1
      match env.body_result with
      | some k =>
        if k = .socketError ∨ k = .connectionFailure then
          ((p1.maybe_return_socket s2.close env).1, .error k)
        else
          ((p1.maybe_return_socket s2 env).1, .error k)
      | none =>
        if checkout then (p1, .ok (some s2))
        else ((p1.maybe_return_socket s2 env).1, .ok none)

/-- Errors raised by `Pool.create_connection`: `ConnectionFailure(msg)`, a
`socket.error` remembered from a failed candidate (identified by `errId`),
or a `socket.error` built from a message string. -/
inductive ConnectErr where
  | connectionFailure (msg : String)
  | socketError (errId : Nat)
  | socketErrorMsg (msg : String)
deriving DecidableEq, Repr

/-- The address family passed to `socket.getaddrinfo`. -/
inductive Family where
  | afInet
  | afUnspec
deriving DecidableEq, Repr

/-- One `getaddrinfo` result: connecting to it either yields the socket
`sockId` or raises the `socket.error` identified by `errId`. -/
structure Candidate where
  sockId : Nat
  connectOk : Bool
  errId : Nat
deriving DecidableEq, Repr

/-- The platform/OS environment of `Pool.create_connection`: presence of
`socket.AF_UNIX` and `socket.has_ipv6`, the outcome of a UNIX-socket
`connect`, and the resolver (`socket.getaddrinfo` restricted to
`SOCK_STREAM`, as a function of the requested address family). -/
structure NetEnv where
  hasAfUnix : Bool
  has_ipv6 : Bool
  unixSockId : Nat
  unixConnectOk : Bool
  unixErrId : Nat
  resolver : Family → List Candidate

/-- The address family chosen by `Pool.create_connection` (pool.py lines
335-337): `AF_INET` unless the platform supports IPv6 and the host is not
the literal string `'localhost'`. -/
def addressFamily (env : NetEnv) (host : String) : Family :=
  if env.has_ipv6 ∧ host ≠ "localhost" then .afUnspec else .afInet

/-- The candidate loop of `Pool.create_connection` (pool.py lines 339-363):
try each resolver result in order, returning the first socket that
connects; remember the last `socket.error`; after the loop raise the
remembered error, or `socket.error('getaddrinfo failed')` when the
resolver produced no candidates at all. -/
def tryCandidates : List Candidate → Option Nat → Except ConnectErr Nat
  | [], none => .error (.socketErrorMsg "getaddrinfo failed")
  | [], some e => .error (.socketError e)
  | c :: rest, err =>
    if c.connectOk then .ok c.sockId else tryCandidates rest (some c.errId)

/-- Python's `host.endswith('.sock')`, computed over the character list so
that concrete instances evaluate. -/
def strEndsWith (s suffix : String) : Bool :=
  suffix.data.isSuffixOf s.data

/-- `Pool.create_connection()` (pool.py lines 311-363): a host ending in
`'.sock'` is connected as a UNIX stream socket (raising
`ConnectionFailure` when the platform lacks `AF_UNIX`, and re-raising the
`socket.error` of a failed `connect`); otherwise the `(host, port)` pair is
resolved with the family from `addressFamily` and the candidates tried in
order. -/
def create_connection (env : NetEnv) (host : String) (port : Nat) :
    Except ConnectErr Nat :=
  if strEndsWith host ".sock" then
    if ¬ env.hasAfUnix then
      .error (.connectionFailure "UNIX-sockets are not supported on this system")
    else if env.unixConnectOk then .ok env.unixSockId
    else .error (.socketError env.unixErrId)
  else
    tryCandidates (env.resolver (addressFamily env host)) none

/-- One pool operation, for reasoning about arbitrary operation sequences:
an external `reset()` (as the topology monitor performs), a full
`get_socket` scope, or a `maybe_return_socket` of some outstanding
connection. -/
inductive PoolOp where
  | reset (pid : Nat)
  | getSocket (creds : List Credential) (mw xw : Nat) (checkout : Bool) (env : GetEnv)
  | maybeReturn (s : SocketInfo) (env : GetEnv)

/-- The pool state after one operation. -/
def Pool.step (p : Pool) (op : PoolOp) : Pool :=
  match op with
  | .reset pid => (p.reset pid).1
  | .getSocket creds mw xw checkout env => (p.get_socket creds mw xw checkout env).1
  | .maybeReturn s env => (p.maybe_return_socket s env).1

/-- The pool state after a sequence of operations. -/
def Pool.run (p : Pool) (ops : List PoolOp) : Pool :=
  ops.foldl Pool.step p

/-- Invariant: every socket in the idle set carries the pool's current
generation. -/
def Pool.socketsCurrent (p : Pool) : Prop :=
  ∀ s ∈ p.sockets, s.pool_id = p.pool_id

/-! ### Lemmas about `check_auth` -/

lemma mem_foldl_erase (x : Credential) :
    ∀ (l s : List Credential), s.Nodup →
      (x ∈ l.foldl (fun a c => a.erase c) s ↔ x ∈ s ∧ x ∉ l)
  | [], s, _ => by simp
  | c :: l, s, h => by
    rw [List.foldl_cons, mem_foldl_erase x l (s.erase c) (h.erase c)]
    rw [h.mem_erase_iff]
    simp only [List.mem_cons]
    tauto

lemma nodup_foldl_erase :
    ∀ (l s : List Credential), s.Nodup →
      (l.foldl (fun a c => a.erase c) s).Nodup
  | [], _, h => h
  | c :: l, s, h => by
    rw [List.foldl_cons]
    exact nodup_foldl_erase l (s.erase c) (h.erase c)

lemma mem_foldl_insert (x : Credential) :
    ∀ (l s : List Credential),
      (x ∈ l.foldl (fun a c => a.insert c) s ↔ x ∈ s ∨ x ∈ l)
  | [], s => by simp
  | c :: l, s => by
    rw [List.foldl_cons, mem_foldl_insert x l (s.insert c)]
    simp only [List.mem_insert_iff, List.mem_cons]
    tauto

lemma nodup_foldl_insert :
    ∀ (l s : List Credential), s.Nodup →
      (l.foldl (fun a c => a.insert c) s).Nodup
  | [], _, h => h
  | c :: l, s, h => by
    rw [List.foldl_cons]
    exact nodup_foldl_insert l (s.insert c) h.insert

/-- `check_auth` only ever touches the `authset` field. -/
lemma check_auth_eq_update (s : SocketInfo) (creds : List Credential) :
    (s.check_auth creds).1 = { s with authset := (s.check_auth creds).1.authset } := by
  unfold SocketInfo.check_auth
  split
  · rfl
  · rfl

/-- Membership in the credential set after `check_auth`: it is exactly the
set of desired credentials. -/
lemma check_auth_mem (s : SocketInfo) (creds : List Credential)
    (hnd : s.authset.Nodup) (x : Credential) :
    x ∈ (s.check_auth creds).1.authset ↔ x ∈ creds := by
  unfold SocketInfo.check_auth
  split
  case isTrue h =>
    simp only
    rw [mem_foldl_insert, mem_foldl_erase _ _ _ hnd]
    simp only [List.mem_filter, List.mem_dedup, decide_not, Bool.not_eq_true,
      decide_eq_false_iff_not, not_not, decide_eq_true_eq]
    by_cases hs : x ∈ s.authset <;> by_cases hc : x ∈ creds <;> simp [hs, hc]
  case isFalse h =>
    push_neg at h
    simp [h.1, h.2]

/-- The credential set after `check_auth` has no duplicates. -/
lemma check_auth_nodup (s : SocketInfo) (creds : List Credential)
    (hnd : s.authset.Nodup) : (s.check_auth creds).1.authset.Nodup := by
  unfold SocketInfo.check_auth
  split
  · exact nodup_foldl_insert _ _ (nodup_foldl_erase _ _ hnd)
  · exact hnd

/-- The external calls of `check_auth`: logouts for the stale credentials,
then logins for the missing ones. -/
lemma check_auth_events (s : SocketInfo) (creds : List Credential) :
    (s.check_auth creds).2 =
      (s.authset.filter (fun c => c ∉ creds.dedup)).map
          (fun c => AuthEvent.logout c.source)
        ++ (creds.dedup.filter (fun c => c ∉ s.authset)).map
          AuthEvent.authenticate := by
  unfold SocketInfo.check_auth
  split
  · rfl
  case isFalse h =>
    push_neg at h
    simp [h.1, h.2]

/-- **C4.** Auth reconciliation differential: `check_auth(desired)` is a
no-op when both `desired` and `auth_set` are empty; otherwise it logs out
every credential in `auth_set − values(desired)` and then authenticates
every credential in `values(desired) − auth_set` (all logout calls precede
all authenticate calls), and on success the final `auth_set` equals
`values(desired)`. -/
theorem check_auth_reconciliation_differential (s : SocketInfo)
    (creds : List Credential) (hnd : s.authset.Nodup) :
    (creds = [] ∧ s.authset = [] → s.check_auth creds = (s, [])) ∧
    (s.check_auth creds).2 =
      (s.authset.filter (fun c => c ∉ creds)).map
          (fun c => AuthEvent.logout c.source)
        ++ (creds.dedup.filter (fun c => c ∉ s.authset)).map
          AuthEvent.authenticate ∧
    (∀ c, c ∈ (s.check_auth creds).1.authset ↔ c ∈ creds) := by
  refine ⟨fun h => ?_, ?_, check_auth_mem s creds hnd⟩
  · unfold SocketInfo.check_auth
    rw [if_neg]
    push_neg
    exact h
  · rw [check_auth_events]
    have hf : s.authset.filter (fun c => c ∉ creds.dedup)
        = s.authset.filter (fun c => c ∉ creds) := by
      apply List.filter_congr
      intro x _
      simp [List.mem_dedup]
    rw [hf]

/-- Witness for C4: a socket authenticated as `{⟨"a","u"⟩}` asked to match
`{⟨"b","v"⟩}` logs out `"a"` and then authenticates `⟨"b","v"⟩`. -/
theorem check_auth_reconciliation_differential_witness :
    (SocketInfo.check_auth ⟨0, [], "h", [⟨"a", "u"⟩], false, 0, 0, none, none⟩
        [⟨"b", "v"⟩]).2
      = [AuthEvent.logout "a", AuthEvent.authenticate ⟨"b", "v"⟩] := by
  have h := check_auth_reconciliation_differential
    ⟨0, [], "h", [⟨"a", "u"⟩], false, 0, 0, none, none⟩ [⟨"b", "v"⟩] (by decide)
  rw [h.2.1]
  rfl

/-- **C8.** Auth reconciliation idempotence: applying `check_auth(X)` twice
with the same `X` performs no external auth calls on the second
application and leaves the socket unchanged by it. -/
theorem check_auth_idempotent (s : SocketInfo) (creds : List Credential)
    (hnd : s.authset.Nodup) :
    ((s.check_auth creds).1.check_auth creds).2 = [] ∧
    ((s.check_auth creds).1.check_auth creds).1 = (s.check_auth creds).1 := by
  have hmem := check_auth_mem s creds hnd
  have hLogout :
      (s.check_auth creds).1.authset.filter (fun c => c ∉ creds.dedup) = [] := by
    rw [List.filter_eq_nil_iff]
    intro a ha
    have hac : a ∈ creds := (hmem a).1 ha
    simp [List.mem_dedup, hac]
  have hLogin :
      creds.dedup.filter (fun c => c ∉ (s.check_auth creds).1.authset) = [] := by
    rw [List.filter_eq_nil_iff]
    intro a ha
    have hac : a ∈ (s.check_auth creds).1.authset := (hmem a).2 (List.mem_dedup.1 ha)
    simp [hac]
  constructor
  · rw [check_auth_events, hLogout, hLogin]
    rfl
  · set s1 := (s.check_auth creds).1 with hs1
    conv_lhs => unfold SocketInfo.check_auth
    split
    · simp only [hLogout, hLogin, List.foldl_nil]
    · rfl

/-- Witness for C8: the second application of `check_auth` with the same
credentials is externally silent and leaves the socket fixed. -/
theorem check_auth_idempotent_witness :
    ((SocketInfo.check_auth ⟨0, [], "h", [⟨"a", "u"⟩], false, 0, 0, none, none⟩
        [⟨"b", "v"⟩]).1.check_auth [⟨"b", "v"⟩]).2 = [] := by
  have h := check_auth_idempotent
    ⟨0, [], "h", [⟨"a", "u"⟩], false, 0, 0, none, none⟩ [⟨"b", "v"⟩] (by decide)
  exact h.1

/-! ### Lemmas about the pool protocol -/

lemma reset_permits (p : Pool) (pid : Nat) :
    (p.reset pid).1.permits = p.permits := rfl

lemma reset_pool_id (p : Pool) (pid : Nat) :
    (p.reset pid).1.pool_id = p.pool_id + 1 := rfl

lemma forkCheck_permits (p : Pool) (env : GetEnv) :
    (if p.pid ≠ env.current_pid then (p.reset env.current_pid).1 else p).permits
      = p.permits := by
  split <;> rfl

lemma checkReplace_permits (p : Pool) (env : GetEnv) :
    (p.checkReplace env).1.permits = p.permits := by
  unfold Pool.checkReplace
  rcases h : p.connect env with k | ns
  · cases k <;> simp [h, reset_permits]
  · simp [h]

lemma check_permits (p : Pool) (s : SocketInfo) (env : GetEnv) :
    (p._check s env).1.permits = p.permits := by
  unfold Pool._check
  split
  · exact checkReplace_permits p env
  · split
    · exact checkReplace_permits p env
    · split
      · split
        · exact checkReplace_permits p env
        · rfl
      · rfl

lemma check_permits_eq {p p3 : Pool} {s : SocketInfo} {env : GetEnv}
    {r : Except ErrKind SocketInfo} (h : p._check s env = (p3, r)) :
    p3.permits = p.permits := by
  have h2 := check_permits p s env
  rw [h] at h2
  exact h2

lemma noAuth_permits (p : Pool) (env : GetEnv) :
    (p._get_socket_no_auth env).1.permits =
      (match (p._get_socket_no_auth env).2 with
       | .ok _ => p.permits - 1
       | .error _ => p.permits) := by
  unfold Pool._get_socket_no_auth
  dsimp only
  by_cases hfork : p.pid ≠ env.current_pid
  case pos =>
    simp only [if_pos hfork]
    split
    · rfl
    · split
      · rename_i t rest hsk
        split <;> rename_i p3 s1 hchk <;>
          have h3 := check_permits_eq hchk <;>
          dsimp only [Pool.withSockets, Pool.acquirePermit, Pool.releasePermit,
            Pool.reset] at h3 ⊢ <;>
          (first
            | exact h3
            | (rw [h3]; omega))
      · split <;>
          dsimp only [Pool.acquirePermit, Pool.releasePermit, Pool.reset] <;>
          (first
            | rfl
            | omega
            | (norm_num))
  case neg =>
    simp only [if_neg hfork]
    split
    · rfl
    · split
      · rename_i t rest hsk
        split <;> rename_i p3 s1 hchk <;>
          have h3 := check_permits_eq hchk <;>
          dsimp only [Pool.withSockets, Pool.acquirePermit, Pool.releasePermit,
            Pool.reset] at h3 ⊢ <;>
          (first
            | exact h3
            | (rw [h3]; omega))
      · split <;>
          dsimp only [Pool.acquirePermit, Pool.releasePermit, Pool.reset] <;>
          (first
            | rfl
            | omega
            | (norm_num))

lemma maybe_return_permits (p : Pool) (s : SocketInfo) (env : GetEnv) :
    (p.maybe_return_socket s env).1.permits = p.permits + 1 := by
  unfold Pool.maybe_return_socket Pool._return_socket
  split
  · rfl
  · split
    · rfl
    · split <;> rfl

lemma noAuth_permits_ok_eq {p : Pool} {env : GetEnv} {p1 : Pool} {s : SocketInfo}
    (h : p._get_socket_no_auth env = (p1, .ok s)) :
    p1.permits = p.permits - 1 := by
  have h2 := noAuth_permits p env
  rw [h] at h2
  exact h2

lemma noAuth_permits_err_eq {p : Pool} {env : GetEnv} {p1 : Pool} {k : ErrKind}
    (h : p._get_socket_no_auth env = (p1, .error k)) :
    p1.permits = p.permits := by
  have h2 := noAuth_permits p env
  rw [h] at h2
  exact h2

lemma tooMany_false_iff (p : Pool) :
    p.tooManySockets = false ↔
      ∀ m, p.opts.max_pool_size = some m → p.sockets.length < m := by
  unfold Pool.tooManySockets
  cases h : p.opts.max_pool_size with
  | none => simp
  | some m => simp [Nat.lt_iff_add_one_le, Nat.not_le]
    <;> omega

/-- **C5.** Release re-pool condition: a release in the owning process of a
non-closed connection inserts it into the idle set iff the idle set is
below `max_pool_size` (when bounded) and the connection's generation equals
the pool's; otherwise the connection is closed and discarded; the permit is
released afterwards in every case, and a connection whose generation lags
is never re-added to the idle set. -/
theorem return_socket_repool_condition (p : Pool) (s : SocketInfo) (env : GetEnv)
    (hpid : p.pid = env.current_pid) (hcl : s.closed = false) :
    ((∀ m, p.opts.max_pool_size = some m → p.sockets.length < m) ∧
        s.pool_id = p.pool_id →
      p.maybe_return_socket s env
        = ((p.withSockets (s :: p.sockets)).releasePermit, none)) ∧
    (¬ ((∀ m, p.opts.max_pool_size = some m → p.sockets.length < m) ∧
        s.pool_id = p.pool_id) →
      p.maybe_return_socket s env = (p.releasePermit, some s.close) ∧
      (s.close).closed = true) ∧
    (p.maybe_return_socket s env).1.permits = p.permits + 1 ∧
    (s.pool_id ≠ p.pool_id → (p.maybe_return_socket s env).1.sockets = p.sockets) := by
  have hmr : p.maybe_return_socket s env = p._return_socket s := by
    unfold Pool.maybe_return_socket
    rw [if_neg (by simp [hpid]), if_neg (by simp [hcl])]
  refine ⟨fun hcond => ?_, fun hcond => ?_, maybe_return_permits p s env, fun hgen => ?_⟩
  · rw [hmr]
    unfold Pool._return_socket
    rw [if_pos]
    refine ⟨?_, hcond.2⟩
    have := (tooMany_false_iff p).2 hcond.1
    simp [this]
  · rw [hmr]
    unfold Pool._return_socket
    rw [if_neg]
    · exact ⟨rfl, rfl⟩
    · intro hc
      apply hcond
      refine ⟨?_, hc.2⟩
      have : p.tooManySockets = false := by
        cases htm : p.tooManySockets
        · rfl
        · exact absurd htm (by simpa using hc.1)
      exact (tooMany_false_iff p).1 this
  · rw [hmr]
    unfold Pool._return_socket
    rw [if_neg (by simp [hgen])]
    rfl

/-- Witness for C5: a live, current-generation connection released into a
pool with one free idle slot is re-pooled and the permit is released. -/
theorem return_socket_repool_condition_witness :
    (Pool.maybe_return_socket
        ⟨[], 0, 9, "h", 1, ⟨some 2, none, none, none, none, false, false⟩, some 1, 1⟩
        ⟨5, [], "h", [], false, 0, 0, none, none⟩
        ⟨9, 0, true, .ok 0, false, none, none⟩).1.sockets
      = [⟨5, [], "h", [], false, 0, 0, none, none⟩] := by
  have h := return_socket_repool_condition
    ⟨[], 0, 9, "h", 1, ⟨some 2, none, none, none, none, false, false⟩, some 1, 1⟩
    ⟨5, [], "h", [], false, 0, 0, none, none⟩
    ⟨9, 0, true, .ok 0, false, none, none⟩ (by decide) (by decide)
  rw [h.1 (by constructor <;> simp)]
  rfl

/-- **C7.** Fork detection: on acquire with a stale recorded pid, `reset()`
runs (emptying the idle set, closing its connections, updating the owning
pid) before the semaphore is touched — acquiring from `p` is the same as
acquiring from the reset pool; on release with a stale pid the permit is
released, `reset()` runs, and the released connection is never re-added to
the idle set. -/
theorem fork_detection (p : Pool) (env : GetEnv) (s : SocketInfo)
    (h : p.pid ≠ env.current_pid) :
    p._get_socket_no_auth env
        = ((p.reset env.current_pid).1)._get_socket_no_auth env ∧
    (p.reset env.current_pid).1.pid = env.current_pid ∧
    (p.reset env.current_pid).1.sockets = [] ∧
    (p.reset env.current_pid).2 = p.sockets.map SocketInfo.close ∧
    (∀ t ∈ (p.reset env.current_pid).2, t.closed = true) ∧
    (p.maybe_return_socket s env).1.permits = p.permits + 1 ∧
    (p.maybe_return_socket s env).1.sockets = [] ∧
    (p.maybe_return_socket s env).1.pool_id = p.pool_id + 1 ∧
    (p.maybe_return_socket s env).1.pid = env.current_pid ∧
    (p.maybe_return_socket s env).2 = some s := by
  have hmr : p.maybe_return_socket s env
      = ((p.releasePermit.reset env.current_pid).1, some s) := by
    unfold Pool.maybe_return_socket
    rw [if_pos (by simpa using h)]
  refine ⟨?_, rfl, rfl, rfl, ?_, ?_, ?_, ?_, ?_, ?_⟩
  · conv_lhs => unfold Pool._get_socket_no_auth
    conv_rhs => unfold Pool._get_socket_no_auth
    dsimp only
    have hLif : (if p.pid ≠ env.current_pid then (p.reset env.current_pid).1 else p)
        = (p.reset env.current_pid).1 := if_pos h
    have hRif : (if (p.reset env.current_pid).1.pid ≠ env.current_pid
          then ((p.reset env.current_pid).1.reset env.current_pid).1
          else (p.reset env.current_pid).1)
        = (p.reset env.current_pid).1 := if_neg (by simp [Pool.reset])
    rw [hLif, hRif]
  · intro t ht
    simp only [Pool.reset, List.mem_map] at ht
    obtain ⟨u, _, hu⟩ := ht
    rw [← hu]
    rfl
  · rw [hmr] <;> rfl
  · rw [hmr] <;> rfl
  · rw [hmr] <;> rfl
  · rw [hmr] <;> rfl
  · rw [hmr] <;> rfl

/-- Witness for C7: a pool owned by pid 1 touched from pid 2. -/
theorem fork_detection_witness :
    (Pool.maybe_return_socket
        ⟨[⟨6, [], "h", [], false, 0, 0, none, none⟩], 0, 1, "h", 1,
          ⟨some 2, none, none, none, none, false, false⟩, some 1, 2⟩
        ⟨5, [], "h", [], false, 0, 0, none, none⟩
        ⟨2, 0, true, .ok 0, false, none, none⟩).1.sockets = [] := by
  have h := fork_detection
    ⟨[⟨6, [], "h", [], false, 0, 0, none, none⟩], 0, 1, "h", 1,
      ⟨some 2, none, none, none, none, false, false⟩, some 1, 2⟩
    ⟨2, 0, true, .ok 0, false, none, none⟩
    ⟨5, [], "h", [], false, 0, 0, none, none⟩ (by decide)
  exact h.2.2.2.2.2.2.1

/-- **C1.** Permit release totality: for every `get_socket` pass — wait
timeout, construction failure, `socket.error`/`ConnectionFailure` during
auth or scoped use, any other exception during scoped use, or normal scope
exit without `checkout` — the available-permit count is back to its initial
value after the scope completes; with `checkout` and a normal exit exactly
one permit stays with the transferred connection. -/
theorem get_socket_release_totality (p : Pool) (creds : List Credential)
    (mw xw : Nat) (checkout : Bool) (env : GetEnv) :
    (∀ s, (p.get_socket creds mw xw checkout env).2 = .ok (some s) →
      (p.get_socket creds mw xw checkout env).1.permits = p.permits - 1) ∧
    ((p.get_socket creds mw xw checkout env).2 = .ok none →
      (p.get_socket creds mw xw checkout env).1.permits = p.permits) ∧
    (∀ k, (p.get_socket creds mw xw checkout env).2 = .error k →
      (p.get_socket creds mw xw checkout env).1.permits = p.permits) := by
  unfold Pool.get_socket
  rcases hga : p._get_socket_no_auth env with ⟨p1, r1⟩
  cases r1 with
  | error k =>
    have hp1 := noAuth_permits_err_eq hga
    refine ⟨fun s hs => ?_, fun hs => ?_, fun k2 hk => ?_⟩
    · simp at hs
    · simp at hs
    · exact hp1
  | ok s0 =>
    have hp1 := noAuth_permits_ok_eq hga
    dsimp only
    cases hauth : env.auth_result with
    | some k =>
      dsimp only
      by_cases hk : k = ErrKind.socketError ∨ k = ErrKind.connectionFailure
      · rw [if_pos hk]
        refine ⟨fun s hs => ?_, fun hs => ?_, fun k2 hk2 => ?_⟩
        · simp at hs
        · simp at hs
        · have hperm := maybe_return_permits p1
            ((s0.set_wire_version_range mw xw).close) env
          dsimp only
          omega
      · rw [if_neg hk]
        refine ⟨fun s hs => ?_, fun hs => ?_, fun k2 hk2 => ?_⟩
        · simp at hs
        · simp at hs
        · have hperm := maybe_return_permits p1
            (s0.set_wire_version_range mw xw) env
          dsimp only
          omega
    | none =>
      dsimp only
      cases hbody : env.body_result with
      | some k =>
        dsimp only
        by_cases hk : k = ErrKind.socketError ∨ k = ErrKind.connectionFailure
        · rw [if_pos hk]
          refine ⟨fun s hs => ?_, fun hs => ?_, fun k2 hk2 => ?_⟩
          · simp at hs
          · simp at hs
          · have hperm := maybe_return_permits p1
              ((((s0.set_wire_version_range mw xw).check_auth creds).1).close) env
            dsimp only
            omega
        · rw [if_neg hk]
          refine ⟨fun s hs => ?_, fun hs => ?_, fun k2 hk2 => ?_⟩
          · simp at hs
          · simp at hs
          · have hperm := maybe_return_permits p1
              (((s0.set_wire_version_range mw xw).check_auth creds).1) env
            dsimp only
            omega
      | none =>
        dsimp only
        cases checkout
        · rw [if_neg (by simp)]
          refine ⟨fun s hs => ?_, fun hs => ?_, fun k2 hk2 => ?_⟩
          · simp at hs
          · have hperm := maybe_return_permits p1
              (((s0.set_wire_version_range mw xw).check_auth creds).1) env
            dsimp only
            omega
          · simp at hk2
        · rw [if_pos rfl]
          refine ⟨fun s hs => ?_, fun hs => ?_, fun k2 hk2 => ?_⟩
          · exact hp1
          · simp at hs
          · simp at hk2

/-- Witness for C1: a normal non-checkout pass restores the permit count of
a two-permit pool to 2, and the same pass with `checkout` leaves it at 1. -/
theorem get_socket_release_totality_witness :
    (Pool.get_socket
        ⟨[], 0, 9, "h", 27017, ⟨some 2, none, none, none, none, false, false⟩,
          some 1, 2⟩
        [⟨"a", "u"⟩] 0 3 false ⟨9, 5, true, .ok 42, false, none, none⟩).1.permits
      = 2 := by
  have h := get_socket_release_totality
    ⟨[], 0, 9, "h", 27017, ⟨some 2, none, none, none, none, false, false⟩,
      some 1, 2⟩
    [⟨"a", "u"⟩] 0 3 false ⟨9, 5, true, .ok 42, false, none, none⟩
  exact h.2.1 (by rfl)

lemma socketsCurrent_nil (p : Pool) (h : p.sockets = []) : p.socketsCurrent := by
  intro s hs
  rw [h] at hs
  cases hs

lemma reset_socketsCurrent (p : Pool) (pid : Nat) : (p.reset pid).1.socketsCurrent :=
  socketsCurrent_nil _ rfl

lemma checkReplace_state (p : Pool) (env : GetEnv) (hp : p.pid = env.current_pid) :
    p.pool_id ≤ (p.checkReplace env).1.pool_id ∧
    (p.checkReplace env).1.pid = env.current_pid ∧
    (p.socketsCurrent → (p.checkReplace env).1.socketsCurrent) := by
  unfold Pool.checkReplace
  rcases h : p.connect env with k | ns
  · cases k
    · exact ⟨Nat.le_succ _, rfl, fun _ => reset_socketsCurrent p env.current_pid⟩
    · exact ⟨le_refl _, hp, fun hc => hc⟩
    · exact ⟨le_refl _, hp, fun hc => hc⟩
  · exact ⟨le_refl _, hp, fun hc => hc⟩

lemma check_state (p : Pool) (s : SocketInfo) (env : GetEnv)
    (hp : p.pid = env.current_pid) :
    p.pool_id ≤ (p._check s env).1.pool_id ∧
    (p._check s env).1.pid = env.current_pid ∧
    (p.socketsCurrent → (p._check s env).1.socketsCurrent) := by
  unfold Pool._check
  split
  · exact checkReplace_state p env hp
  · split
    · exact checkReplace_state p env hp
    · split
      · split
        · exact checkReplace_state p env hp
        · exact ⟨le_refl _, hp, fun hc => hc⟩
      · exact ⟨le_refl _, hp, fun hc => hc⟩

lemma withSockets_sub_socketsCurrent (p : Pool) (t : SocketInfo)
    (rest : List SocketInfo) (hsk : p.sockets = t :: rest)
    (hc : p.socketsCurrent) : (p.withSockets rest).socketsCurrent := by
  intro s hs
  exact hc s (by rw [hsk]; exact List.mem_cons_of_mem t hs)

lemma noAuth_state (p : Pool) (env : GetEnv) :
    p.pool_id ≤ (p._get_socket_no_auth env).1.pool_id ∧
    (p._get_socket_no_auth env).1.pid = env.current_pid ∧
    (p.socketsCurrent → ((p._get_socket_no_auth env).1).socketsCurrent) := by
  unfold Pool._get_socket_no_auth
  dsimp only
  by_cases hfork : p.pid ≠ env.current_pid
  case pos =>
    rw [if_pos hfork]
    have hbase : p.pool_id ≤ (p.reset env.current_pid).1.pool_id := Nat.le_succ _
    have hpid0 : (p.reset env.current_pid).1.pid = env.current_pid := rfl
    have hcur0 : (p.reset env.current_pid).1.socketsCurrent :=
      reset_socketsCurrent p env.current_pid
    split
    · exact ⟨hbase, hpid0, fun _ => hcur0⟩
    · split
      · rename_i t rest hsk
        split <;> rename_i p3 s1 hchk <;>
          have h3 := check_state
            (((p.reset env.current_pid).1.acquirePermit).withSockets rest) t env hpid0
          <;> rw [hchk] at h3 <;>
          refine ⟨le_trans hbase h3.1, h3.2.1, fun _ => h3.2.2 ?_⟩ <;>
          exact withSockets_sub_socketsCurrent _ t rest hsk hcur0
      · split
        · exact ⟨hbase, hpid0, fun _ => hcur0⟩
        · exact ⟨hbase, hpid0, fun _ => hcur0⟩
  case neg =>
    rw [if_neg hfork]
    have hpideq : p.pid = env.current_pid := by
      by_contra hne
      exact hfork hne
    split
    · exact ⟨le_refl _, hpideq, fun hc => hc⟩
    · split
      · rename_i t rest hsk
        split <;> rename_i p3 s1 hchk <;>
          have h3 := check_state ((p.acquirePermit).withSockets rest) t env hpideq
          <;> rw [hchk] at h3 <;>
          refine ⟨h3.1, h3.2.1, fun hc => h3.2.2 ?_⟩ <;>
          exact withSockets_sub_socketsCurrent _ t rest hsk hc
      · split
        · exact ⟨le_refl _, hpideq, fun hc => hc⟩
        · exact ⟨le_refl _, hpideq, fun hc => hc⟩

lemma return_socket_state (p : Pool) (s : SocketInfo) :
    (p._return_socket s).1.pool_id = p.pool_id ∧
    (p._return_socket s).1.pid = p.pid ∧
    (p.socketsCurrent → (p._return_socket s).1.socketsCurrent) := by
  unfold Pool._return_socket
  split
  · rename_i hcond
    refine ⟨rfl, rfl, fun hc => ?_⟩
    intro t ht
    rcases List.mem_cons.1 ht with h1 | h2
    · rw [h1]
      exact hcond.2
    · exact hc t h2
  · exact ⟨rfl, rfl, fun hc => hc⟩

lemma maybe_return_state (p : Pool) (s : SocketInfo) (env : GetEnv) :
    p.pool_id ≤ (p.maybe_return_socket s env).1.pool_id ∧
    (p.socketsCurrent → (p.maybe_return_socket s env).1.socketsCurrent) := by
  unfold Pool.maybe_return_socket
  split
  · exact ⟨Nat.le_succ _, fun _ => reset_socketsCurrent _ env.current_pid⟩
  · split
    · exact ⟨le_refl _, fun hc => hc⟩
    · have h := return_socket_state p s
      exact ⟨le_of_eq h.1.symm, h.2.2⟩

lemma get_socket_state (p : Pool) (creds : List Credential) (mw xw : Nat)
    (checkout : Bool) (env : GetEnv) :
    p.pool_id ≤ (p.get_socket creds mw xw checkout env).1.pool_id ∧
    (p.socketsCurrent → (p.get_socket creds mw xw checkout env).1.socketsCurrent) := by
  unfold Pool.get_socket
  rcases hga : p._get_socket_no_auth env with ⟨p1, r1⟩
  have h1 := noAuth_state p env
  rw [hga] at h1
  cases r1 with
  | error k => exact ⟨h1.1, h1.2.2⟩
  | ok s0 =>
    dsimp only
    cases hauth : env.auth_result with
    | some k =>
      dsimp only
      split <;>
        refine ⟨le_trans h1.1 (maybe_return_state p1 _ env).1,
          fun hc => (maybe_return_state p1 _ env).2 (h1.2.2 hc)⟩
    | none =>
      dsimp only
      cases hbody : env.body_result with
      | some k =>
        dsimp only
        split <;>
          refine ⟨le_trans h1.1 (maybe_return_state p1 _ env).1,
            fun hc => (maybe_return_state p1 _ env).2 (h1.2.2 hc)⟩
      | none =>
        dsimp only
        cases checkout
        · rw [if_neg (by simp)]
          refine ⟨le_trans h1.1 (maybe_return_state p1 _ env).1,
            fun hc => (maybe_return_state p1 _ env).2 (h1.2.2 hc)⟩
        · rw [if_pos rfl]
          exact ⟨h1.1, h1.2.2⟩

lemma step_state (p : Pool) (op : PoolOp) :
    p.pool_id ≤ (p.step op).pool_id ∧
    (p.socketsCurrent → (p.step op).socketsCurrent) := by
  cases op with
  | reset pid =>
    exact ⟨Nat.le_succ _, fun _ => reset_socketsCurrent p pid⟩
  | getSocket creds mw xw checkout env =>
    exact get_socket_state p creds mw xw checkout env
  | maybeReturn s env =>
    exact maybe_return_state p s env

lemma run_state (p : Pool) (ops : List PoolOp) :
    p.pool_id ≤ (p.run ops).pool_id ∧
    (p.socketsCurrent → (p.run ops).socketsCurrent) := by
  induction ops generalizing p with
  | nil => exact ⟨le_refl _, fun hc => hc⟩
  | cons op ops ih =>
    have h1 := step_state p op
    have h2 := ih (p.step op)
    exact ⟨le_trans h1.1 h2.1, fun hc => h2.2 (h1.2 hc)⟩

/-- **C6.** Reset semantics and generation monotonicity: `pool_id` never
decreases across any sequence of pool operations; `reset()` increments the
generation, refreshes the owning pid, swaps the idle set with an empty one
and closes every removed connection, and touches no semaphore permit; and
after a `reset()` no previously-pooled connection reappears in the idle set
under any further operations. -/
theorem pool_reset_generation_monotonic :
    (∀ (p : Pool) (ops : List PoolOp), p.pool_id ≤ (p.run ops).pool_id) ∧
    (∀ (p : Pool) (pid : Nat),
      (p.reset pid).1.pool_id = p.pool_id + 1 ∧
      (p.reset pid).1.pid = pid ∧
      (p.reset pid).1.sockets = [] ∧
      (p.reset pid).1.permits = p.permits ∧
      (p.reset pid).2 = p.sockets.map SocketInfo.close ∧
      (∀ t ∈ (p.reset pid).2, t.closed = true)) ∧
    (∀ (p : Pool) (pid : Nat) (ops : List PoolOp) (s : SocketInfo),
      p.socketsCurrent → s ∈ p.sockets →
      s ∉ (((p.reset pid).1).run ops).sockets) := by
  refine ⟨fun p ops => (run_state p ops).1, fun p pid => ⟨rfl, rfl, rfl, rfl, rfl, ?_⟩,
    fun p pid ops s hcur hmem hrun => ?_⟩
  · intro t ht
    simp only [Pool.reset, List.mem_map] at ht
    obtain ⟨u, _, hu⟩ := ht
    rw [← hu]
    rfl
  · have hq := run_state (p.reset pid).1 ops
    have hqc := hq.2 (reset_socketsCurrent p pid)
    have hsid : s.pool_id = ((p.reset pid).1.run ops).pool_id := hqc s hrun
    have hle : p.pool_id + 1 ≤ ((p.reset pid).1.run ops).pool_id := hq.1
    have hsp : s.pool_id = p.pool_id := hcur s hmem
    omega

/-- Witness for C6: a pooled generation-0 connection never reappears after
a reset followed by a full `get_socket` pass. -/
theorem pool_reset_generation_monotonic_witness :
    (⟨6, [], "h", [], false, 0, 0, none, none⟩ : SocketInfo) ∉
      ((Pool.reset
          ⟨[⟨6, [], "h", [], false, 0, 0, none, none⟩], 0, 1, "h", 1,
            ⟨some 2, none, none, none, none, false, false⟩, some 1, 1⟩ 1).1.run
        [PoolOp.getSocket [] 0 0 false ⟨1, 5, true, .ok 42, false, none, none⟩]).sockets := by
  apply pool_reset_generation_monotonic.2.2
  · intro t ht
    rcases List.mem_singleton.1 ht with rfl
    rfl
  · exact List.mem_singleton.2 rfl

lemma check_auth_closed (s : SocketInfo) (creds : List Credential) :
    (s.check_auth creds).1.closed = s.closed := by
  conv_lhs => rw [check_auth_eq_update s creds]

lemma check_auth_pool_id (s : SocketInfo) (creds : List Credential) :
    (s.check_auth creds).1.pool_id = s.pool_id := by
  conv_lhs => rw [check_auth_eq_update s creds]

lemma noAuth_pid_eq {p : Pool} {env : GetEnv} {p1 : Pool}
    {r : Except ErrKind SocketInfo} (h : p._get_socket_no_auth env = (p1, r)) :
    p1.pid = env.current_pid := by
  have h2 := (noAuth_state p env).2.1
  rw [h] at h2
  exact h2

/-- **C10.** A scope-body exception that is neither `socket.error` nor
`ConnectionFailure` returns the connection to the pool without closing it —
when its generation matches and the idle set is below the cap it is
re-added to the idle set still open; only `socket.error` and
`ConnectionFailure` close the connection before release. -/
theorem get_socket_domain_error_repools_open (p : Pool) (creds : List Credential)
    (mw xw : Nat) (checkout : Bool) (env : GetEnv) (p1 : Pool) (s0 : SocketInfo)
    (hga : p._get_socket_no_auth env = (p1, .ok s0))
    (hauth : env.auth_result = none) :
    (env.body_result = some ErrKind.otherError →
      p.get_socket creds mw xw checkout env
        = ((p1.maybe_return_socket
            (((s0.set_wire_version_range mw xw).check_auth creds).1) env).1,
           .error .otherError) ∧
      (((s0.set_wire_version_range mw xw).check_auth creds).1).closed = s0.closed ∧
      (s0.closed = false → s0.pool_id = p1.pool_id →
        (∀ m, p1.opts.max_pool_size = some m → p1.sockets.length < m) →
        (p1.maybe_return_socket
            (((s0.set_wire_version_range mw xw).check_auth creds).1) env).1.sockets
          = (((s0.set_wire_version_range mw xw).check_auth creds).1) :: p1.sockets ∧
        (((s0.set_wire_version_range mw xw).check_auth creds).1).closed = false)) ∧
    (∀ k, (k = ErrKind.socketError ∨ k = ErrKind.connectionFailure) →
      env.body_result = some k →
      p.get_socket creds mw xw checkout env
        = ((p1.maybe_return_socket
            ((((s0.set_wire_version_range mw xw).check_auth creds).1).close) env).1,
           .error k) ∧
      (p1.maybe_return_socket
          ((((s0.set_wire_version_range mw xw).check_auth creds).1).close) env).1.sockets
        = p1.sockets) := by
  have hpid : p1.pid = env.current_pid := noAuth_pid_eq hga
  have hcl : (((s0.set_wire_version_range mw xw).check_auth creds).1).closed = s0.closed :=
    check_auth_closed (s0.set_wire_version_range mw xw) creds
  have hpl : (((s0.set_wire_version_range mw xw).check_auth creds).1).pool_id = s0.pool_id :=
    check_auth_pool_id (s0.set_wire_version_range mw xw) creds
  constructor
  · intro hbody
    refine ⟨?_, hcl, fun hc0 hg0 hcap => ⟨?_, by rw [hcl]; exact hc0⟩⟩
    · unfold Pool.get_socket
      rw [hga]
      dsimp only
      rw [hauth]
      dsimp only
      rw [hbody]
      dsimp only
      rw [if_neg (by simp)]
    · unfold Pool.maybe_return_socket
      rw [if_neg (by simp [hpid]), if_neg (by simp [hcl, hc0])]
      unfold Pool._return_socket
      rw [if_pos]
      · rfl
      · refine ⟨?_, by rw [hpl]; exact hg0⟩
        have := (tooMany_false_iff p1).2 hcap
        simp [this]
  · intro k hk hbody
    constructor
    · unfold Pool.get_socket
      rw [hga]
      dsimp only
      rw [hauth]
      dsimp only
      rw [hbody]
      dsimp only
      rw [if_pos hk]
    · unfold Pool.maybe_return_socket
      rw [if_neg (by simp [hpid]), if_pos (by rfl)]
      rfl

/-- Witness for C10: a domain error in the scope body leaves the fresh
connection open and re-pooled; a socket error closes it and it is not
re-pooled. -/
theorem get_socket_domain_error_repools_open_witness :
    (Pool.get_socket
        ⟨[], 0, 9, "h", 27017, ⟨some 2, none, none, none, none, false, false⟩,
          some 1, 2⟩
        [] 0 3 false
        ⟨9, 5, true, .ok 42, false, none, some ErrKind.otherError⟩).1.sockets
      = [⟨42, [], "h", [], false, 5, 0, some 0, some 3⟩] := by
  have h := get_socket_domain_error_repools_open
    ⟨[], 0, 9, "h", 27017, ⟨some 2, none, none, none, none, false, false⟩,
      some 1, 2⟩
    [] 0 3 false
    ⟨9, 5, true, .ok 42, false, none, some ErrKind.otherError⟩
    ⟨[], 0, 9, "h", 27017, ⟨some 2, none, none, none, none, false, false⟩,
      some 1, 1⟩
    ⟨42, [], "h", [], false, 5, 0, none, none⟩
    (by rfl) (by rfl)
  have h2 := (h.1 (by rfl)).1
  rw [h2]
  have h3 := (h.1 (by rfl)).2.2 (by rfl) (by rfl) (by intro m hm; cases hm; decide)
  rw [h3.1]
  rfl

/-! ### Lemmas about `create_connection` -/

lemma tryCandidates_first_ok :
    ∀ (l1 : List Candidate) (err : Option Nat) (c : Candidate) (l2 : List Candidate),
      (∀ d ∈ l1, d.connectOk = false) → c.connectOk = true →
      tryCandidates (l1 ++ c :: l2) err = .ok c.sockId
  | [], err, c, l2, _, hc => by
    unfold tryCandidates
    simp [hc]
  | d :: l1, err, c, l2, h, hc => by
    rw [List.cons_append]
    unfold tryCandidates
    rw [if_neg (by simp [h d (List.mem_cons_self d l1)])]
    exact tryCandidates_first_ok l1 (some d.errId) c l2
      (fun e he => h e (List.mem_cons_of_mem d he)) hc

lemma tryCandidates_all_fail :
    ∀ (l1 : List Candidate) (err : Option Nat) (c : Candidate),
      (∀ d ∈ l1, d.connectOk = false) → c.connectOk = false →
      tryCandidates (l1 ++ [c]) err = .error (.socketError c.errId)
  | [], err, c, _, hc => by
    rw [List.nil_append]
    unfold tryCandidates
    rw [if_neg (by simp [hc])]
    rfl
  | d :: l1, err, c, h, hc => by
    rw [List.cons_append]
    unfold tryCandidates
    rw [if_neg (by simp [h d (List.mem_cons_self d l1)])]
    exact tryCandidates_all_fail l1 (some d.errId) c
      (fun e he => h e (List.mem_cons_of_mem d he)) hc

/-- **C9.** Connector algorithm: a host ending in `.sock` is connected as a
UNIX stream socket when the platform supports `AF_UNIX` — the resolver is
never consulted, the UNIX `connect`'s socket is returned on success and its
`socket.error` re-raised on failure — and fails with
`ConnectionFailure("UNIX-sockets are not supported on this system")` when
the platform lacks `AF_UNIX`; otherwise resolution uses the unspecified
address family exactly when the platform supports IPv6 and the host is not
the literal `localhost` (else IPv4); the candidates are tried in order and
the first connecting one is returned; if all fail the last connection error
is raised, and if the resolver returned nothing a `"getaddrinfo failed"`
error is raised. -/
theorem create_connection_algorithm (env : NetEnv) (host : String) (port : Nat) :
    (strEndsWith host ".sock" = true → env.hasAfUnix = false →
      create_connection env host port
        = .error (.connectionFailure "UNIX-sockets are not supported on this system")) ∧
    (strEndsWith host ".sock" = true → env.hasAfUnix = true →
      env.unixConnectOk = true →
      create_connection env host port = .ok env.unixSockId) ∧
    (strEndsWith host ".sock" = true → env.hasAfUnix = true →
      env.unixConnectOk = false →
      create_connection env host port = .error (.socketError env.unixErrId)) ∧
    (addressFamily env host = Family.afUnspec ↔
      (env.has_ipv6 = true ∧ host ≠ "localhost")) ∧
    (strEndsWith host ".sock" = false →
      create_connection env host port
        = tryCandidates (env.resolver (addressFamily env host)) none) ∧
    (∀ l1 c l2, (∀ d ∈ l1, d.connectOk = false) → c.connectOk = true →
      tryCandidates (l1 ++ c :: l2) none = .ok c.sockId) ∧
    (∀ l1 c, (∀ d ∈ l1, d.connectOk = false) → c.connectOk = false →
      tryCandidates (l1 ++ [c]) none = .error (.socketError c.errId)) ∧
    tryCandidates ([] : List Candidate) none
      = .error (.socketErrorMsg "getaddrinfo failed") := by
  refine ⟨fun hsock hunix => ?_, fun hsock hunix hconn => ?_,
    fun hsock hunix hconn => ?_, ?_, fun hsock => ?_,
    fun l1 c l2 h hc => tryCandidates_first_ok l1 none c l2 h hc,
    fun l1 c h hc => tryCandidates_all_fail l1 none c h hc, rfl⟩
  · unfold create_connection
    rw [if_pos hsock, if_pos (by simp [hunix])]
  · unfold create_connection
    rw [if_pos hsock, if_neg (by simp [hunix]), if_pos hconn]
  · unfold create_connection
    rw [if_pos hsock, if_neg (by simp [hunix]), if_neg (by simp [hconn])]
  · unfold addressFamily
    split
    case isTrue h => simp [h.1, h.2]
    case isFalse h =>
      push_neg at h
      constructor
      · intro hf
        cases hf
      · intro ⟨h6, hl⟩
        exact absurd (h (by simp [h6])) (by simpa using hl)
  · unfold create_connection
    rw [if_neg (by simp [hsock])]

/-- Witness for C9: a `.sock` host on a platform with `AF_UNIX` connects
the UNIX socket without consulting the resolver, and on a TCP host the
first connecting candidate's socket is returned. -/
theorem create_connection_algorithm_witness :
    create_connection ⟨true, true, 11, true, 5, fun _ => []⟩
        "/tmp/mongodb-27017.sock" 0 = .ok 11 ∧
    tryCandidates [⟨7, false, 3⟩, ⟨8, true, 4⟩] none = .ok 8 := by
  have h := create_connection_algorithm
    ⟨true, true, 11, true, 5, fun _ => []⟩ "/tmp/mongodb-27017.sock" 0
  exact ⟨h.2.1 (by decide) (by decide) (by decide),
    h.2.2.2.2.2.1 [⟨7, false, 3⟩] ⟨8, true, 4⟩ [] (by decide) (by decide)⟩

/-! ### Lemmas about the framed receive path -/

/-- On a stream of nonempty chunks holding at least `n` bytes, the receive
loop returns exactly the first `n` bytes and leaves the rest queued. -/
lemma receiveData_ok :
    ∀ (chunks : List (List Nat)) (n : Nat),
      (∀ c ∈ chunks, c ≠ []) → n ≤ chunks.flatten.length →
      ∃ rest, receiveDataOnSocket chunks n = .ok (chunks.flatten.take n, rest) ∧
        rest.flatten = chunks.flatten.drop n ∧ (∀ c ∈ rest, c ≠ [])
  | chunks, 0, hne, _ => ⟨chunks, by cases chunks <;> rfl, by simp, hne⟩
  | [], n + 1, _, hlen => by simp at hlen
  | c :: rest, n + 1, hne, hlen => by
    have hcne : c ≠ [] := hne c (List.mem_cons_self c rest)
    have hrne : ∀ d ∈ rest, d ≠ [] := fun d hd => hne d (List.mem_cons_of_mem c hd)
    have hclen : 0 < c.length := List.length_pos.mpr hcne
    rw [List.flatten_cons, List.length_append] at hlen
    by_cases hdrop : c.drop (n + 1) = []
    · -- the head chunk is consumed entirely
      have hcle : c.length ≤ n + 1 := by
        by_contra hgt
        have hne2 : c.drop (n + 1) ≠ [] := by
          apply List.ne_nil_of_length_pos
          rw [List.length_drop]
          omega
        exact hne2 hdrop
      have htk : c.take (n + 1) = c := List.take_of_length_le hcle
      obtain ⟨r2, hr2, hrf2, hrne2⟩ :=
        receiveData_ok rest (n + 1 - (c.take (n + 1)).length) hrne (by
          rw [htk]
          omega)
      refine ⟨r2, ?_, ?_, hrne2⟩
      · unfold receiveDataOnSocket
        rw [if_neg hcne]
        dsimp only
        rw [if_pos hdrop, hr2]
        rw [htk, List.flatten_cons, List.take_append_eq_append_take,
          List.take_of_length_le hcle]
      · rw [hrf2, htk, List.flatten_cons, List.drop_append_eq_append_drop,
          List.drop_eq_nil_of_le hcle, List.nil_append]
    · -- the head chunk holds more than requested: the loop exits at count 0
      have hlt : n + 1 < c.length := by
        by_contra hle
        exact hdrop (List.drop_eq_nil_of_le (by omega))
      refine ⟨c.drop (n + 1) :: rest, ?_, ?_, ?_⟩
      · unfold receiveDataOnSocket
        rw [if_neg hcne]
        dsimp only
        rw [if_neg hdrop]
        rw [List.flatten_cons, List.take_append_of_le_length (by omega)]
      · rw [List.flatten_cons, List.flatten_cons,
          List.drop_append_of_le_length (by omega)]
      · intro d hd
        rcases List.mem_cons.1 hd with h1 | h2
        · rw [h1]
          exact hdrop
        · exact hrne d h2

/-- On a stream of nonempty chunks holding fewer than `n` bytes, the peer's
close (`recv` returning `b""`) is observed before the frame is complete. -/
lemma receiveData_short :
    ∀ (chunks : List (List Nat)) (n : Nat),
      (∀ c ∈ chunks, c ≠ []) → chunks.flatten.length < n →
      receiveDataOnSocket chunks n = .error .autoReconnect
  | chunks, 0, _, hlen => by omega
  | [], n + 1, _, _ => rfl
  | c :: rest, n + 1, hne, hlen => by
    have hcne : c ≠ [] := hne c (List.mem_cons_self c rest)
    have hrne : ∀ d ∈ rest, d ≠ [] := fun d hd => hne d (List.mem_cons_of_mem c hd)
    have hclen : 0 < c.length := List.length_pos.mpr hcne
    rw [List.flatten_cons, List.length_append] at hlen
    have hcle : c.length ≤ n + 1 := by omega
    have hdrop : c.drop (n + 1) = [] := List.drop_eq_nil_of_le hcle
    have htk : c.take (n + 1) = c := List.take_of_length_le hcle
    have hrec := receiveData_short rest (n + 1 - (c.take (n + 1)).length) hrne (by
      rw [htk]
      omega)
    unfold receiveDataOnSocket
    rw [if_neg hcne]
    dsimp only
    rw [if_pos hdrop, hrec]

/-- A saturated header read: the first 16 bytes of the stream are returned
and the remainder stays queued. -/
lemma receiveMessage_header {chunks : List (List Nat)} {header payload : List Nat}
    (hne : ∀ c ∈ chunks, c ≠ []) (hflat : chunks.flatten = header ++ payload)
    (hlen : header.length = 16) :
    ∃ rest, receiveDataOnSocket chunks 16 = .ok (header, rest) ∧
      rest.flatten = payload ∧ (∀ c ∈ rest, c ≠ []) := by
  obtain ⟨rest, hr, hrf, hrne⟩ := receiveData_ok chunks 16 hne (by
    rw [hflat, List.length_append, hlen]
    omega)
  refine ⟨rest, ?_, ?_, hrne⟩
  · rw [hr, hflat, List.take_append_of_le_length (by omega),
      List.take_of_length_le (by omega)]
  · rw [hrf, hflat, List.drop_append_of_le_length (by omega),
      List.drop_eq_nil_of_le (by omega), List.nil_append]

/-- **C2.** Framing correlation: for a queued response whose 16-byte
little-endian header carries the total length at offset 0, the response-to
id at offset 8 and the opcode at offset 12, `receive_message(operation,
request_id)` returns exactly the `total_length − 16` payload bytes when
`operation` matches the opcode and `request_id` is absent (response-to
ignored) or equals the response-to field; an opcode mismatch, or a supplied
`request_id` differing from the response-to field, is a fatal assertion
failure. -/
theorem receive_message_framing_correlation (s : SocketInfo)
    (header payload : List Nat) (respTo opcode : Int)
    (hne : ∀ c ∈ s.chunks, c ≠ [])
    (hflat : s.chunks.flatten = header ++ payload)
    (hlen : header.length = 16)
    (htot : int32LE (header.take 4) = 16 + payload.length)
    (hresp : int32LE ((header.drop 8).take 4) = respTo)
    (hop : int32LE (header.drop 12) = opcode) :
    ((s.receive_message opcode none).2 = .ok payload) ∧
    ((s.receive_message opcode (some respTo)).2 = .ok payload) ∧
    (∀ rid, rid ≠ respTo →
      (s.receive_message opcode (some rid)).2 = .error .assertionIdMismatch ∧
      (s.receive_message opcode (some rid)).1.closed = true) ∧
    (∀ op2, op2 ≠ opcode →
      (s.receive_message op2 none).2 = .error .assertionOpMismatch ∧
      (s.receive_message op2 none).1.closed = true) := by
  obtain ⟨rest, hrecv, hrf, hrne⟩ := receiveMessage_header hne hflat hlen
  obtain ⟨r2, hr2, hrf2, hrne2⟩ := receiveData_ok rest payload.length hrne
    (by rw [hrf])
  have hpay : rest.flatten.take payload.length = payload := by
    rw [hrf]
    exact List.take_length payload
  have hneg : ¬ ((16 + (payload.length : Int)) - 16 < 0) := by omega
  have htn : ((16 + (payload.length : Int)) - 16).toNat = payload.length := by
    omega
  refine ⟨?_, ?_, fun rid hrid => ?_, fun op2 hop2 => ?_⟩
  · have haux : receiveMessageAux s.chunks opcode none = .ok (payload, r2) := by
      unfold receiveMessageAux
      rw [hrecv]
      dsimp only
      rw [htot, hop]
      rw [if_neg (by simp), if_neg (by simp), if_neg hneg, htn, hr2, hpay]
    unfold SocketInfo.receive_message
    rw [haux]
  · have haux : receiveMessageAux s.chunks opcode (some respTo)
        = .ok (payload, r2) := by
      unfold receiveMessageAux
      rw [hrecv]
      dsimp only
      rw [htot, hop, hresp]
      rw [if_neg (by simp), if_neg (by simp), if_neg hneg, htn, hr2, hpay]
    unfold SocketInfo.receive_message
    rw [haux]
  · have haux : receiveMessageAux s.chunks opcode (some rid)
        = .error .assertionIdMismatch := by
      unfold receiveMessageAux
      rw [hrecv]
      dsimp only
      rw [hresp]
      rw [if_pos (by simp [hrid])]
    unfold SocketInfo.receive_message
    rw [haux]
    exact ⟨rfl, rfl⟩
  · have haux : receiveMessageAux s.chunks op2 none
        = .error .assertionOpMismatch := by
      unfold receiveMessageAux
      rw [hrecv]
      dsimp only
      rw [hop]
      rw [if_neg (by simp), if_pos (by simp [hop2])]
    unfold SocketInfo.receive_message
    rw [haux]
    exact ⟨rfl, rfl⟩

/-- Witness for C2: a frame with `length=32, response_to=7, opcode=1` and a
16-byte `0xAA` body, delivered in two chunks. -/
theorem receive_message_framing_correlation_witness :
    (SocketInfo.receive_message
        ⟨3, [[32, 0, 0, 0, 0, 0, 0, 0, 7, 0, 0, 0], [1, 0, 0, 0] ++ List.replicate 16 170],
          "h", [], false, 0, 0, none, none⟩ 1 (some 7)).2
      = .ok (List.replicate 16 170) := by
  have h := receive_message_framing_correlation
    ⟨3, [[32, 0, 0, 0, 0, 0, 0, 0, 7, 0, 0, 0], [1, 0, 0, 0] ++ List.replicate 16 170],
      "h", [], false, 0, 0, none, none⟩
    [32, 0, 0, 0, 0, 0, 0, 0, 7, 0, 0, 0, 1, 0, 0, 0] (List.replicate 16 170)
    7 1 (by decide) (by decide) (by decide) (by decide) (by decide) (by decide)
  exact h.2.1

/-- **C3.** Short-read and I/O-error handling: when the peer yields zero
bytes before the full frame is consumed — during the 16-byte header or
during the payload — `receive_message` raises
`AutoReconnect("connection closed")` and the connection's `closed` flag is
set; any exception from `receive_message` or `send_message` closes the
connection before propagating. -/
theorem receive_message_short_read_autoreconnect :
    (∀ (s : SocketInfo) (op : Int) (rid : Option Int),
      (∀ c ∈ s.chunks, c ≠ []) → s.chunks.flatten.length < 16 →
      s.receive_message op rid = (s.close, .error .autoReconnect) ∧
      (s.close).closed = true) ∧
    (∀ (s : SocketInfo) (header shortPayload : List Nat) (opcode : Int) (L : Nat),
      (∀ c ∈ s.chunks, c ≠ []) →
      s.chunks.flatten = header ++ shortPayload →
      header.length = 16 →
      int32LE (header.take 4) = 16 + L →
      int32LE (header.drop 12) = opcode →
      shortPayload.length < L →
      s.receive_message opcode none = (s.close, .error .autoReconnect) ∧
      (s.close).closed = true) ∧
    (∀ (s : SocketInfo) (op : Int) (rid : Option Int) (e : WireError),
      (s.receive_message op rid).2 = .error e →
      (s.receive_message op rid).1 = s.close ∧ (s.close).closed = true) ∧
    (∀ (s : SocketInfo) (sendOk : Bool) (e : WireError),
      (s.send_message sendOk).2 = .error e →
      (s.send_message sendOk).1.closed = true) := by
  refine ⟨fun s op rid hne hshort => ?_, fun s header shortPayload opcode L hne
    hflat hlen htot hop hshortp => ?_, fun s op rid e herr => ?_,
    fun s sendOk e herr => ?_⟩
  · have haux : receiveMessageAux s.chunks op rid = .error .autoReconnect := by
      unfold receiveMessageAux
      rw [receiveData_short s.chunks 16 hne hshort]
    unfold SocketInfo.receive_message
    rw [haux]
    exact ⟨rfl, rfl⟩
  · obtain ⟨rest, hrecv, hrf, hrne⟩ := receiveMessage_header hne hflat hlen
    have hneg : ¬ ((16 + (L : Int)) - 16 < 0) := by omega
    have htn : ((16 + (L : Int)) - 16).toNat = L := by omega
    have hshort2 : rest.flatten.length < L := by
      rw [hrf]
      exact hshortp
    have haux : receiveMessageAux s.chunks opcode none = .error .autoReconnect := by
      unfold receiveMessageAux
      rw [hrecv]
      dsimp only
      rw [htot, hop]
      rw [if_neg (by simp), if_neg (by simp), if_neg hneg, htn]
      exact receiveData_short rest L hrne hshort2
    unfold SocketInfo.receive_message
    rw [haux]
    exact ⟨rfl, rfl⟩
  · unfold SocketInfo.receive_message at herr ⊢
    rcases haux : receiveMessageAux s.chunks op rid with e2 | ⟨pl, r2⟩
    · exact ⟨rfl, rfl⟩
    · rw [haux] at herr
      simp at herr
  · unfold SocketInfo.send_message at herr ⊢
    rcases hok : sendOk with _ | _
    · rfl
    · rw [hok] at herr
      simp at herr

/-- Witness for C3: the peer closing after 8 header bytes yields
`AutoReconnect` and a closed connection. -/
theorem receive_message_short_read_autoreconnect_witness :
    SocketInfo.receive_message
        ⟨3, [[32, 0, 0, 0, 0, 0, 0, 0]], "h", [], false, 0, 0, none, none⟩ 1 (some 7)
      = (SocketInfo.close
          ⟨3, [[32, 0, 0, 0, 0, 0, 0, 0]], "h", [], false, 0, 0, none, none⟩,
         .error .autoReconnect) := by
  have h := receive_message_short_read_autoreconnect.1
    ⟨3, [[32, 0, 0, 0, 0, 0, 0, 0]], "h", [], false, 0, 0, none, none⟩ 1 (some 7)
    (by decide) (by decide)
  exact h.1

end PyMongoPool
